import Mathlib

/-!
# Verification of `poker_utility.py`

Shallow embedding of the poker hand-script parser (`src/poker_utility.py`)
and proofs about its behaviour.  Python strings are modelled as Lean
`String`s (ASCII case conventions), Python `float` amounts as exact
rationals (plus `inf`/`nan` markers), file input as a list of lines, and
every Python `raise` as an `Except.error` carrying exactly the data that
the corresponding Python error message interpolates.
-/

namespace PokerUtility

/-! ## Python string primitives used by the parser -/

/-- Python `str.upper()` restricted to ASCII (all tokens in scripts are ASCII). -/
def pyUpper (s : String) : String := ⟨s.toList.map Char.toUpper⟩

/-- Python `str.lower()` restricted to ASCII. -/
def pyLower (s : String) : String := ⟨s.toList.map Char.toLower⟩

/-- Python `str.strip()`: drop leading and trailing whitespace. -/
def pyStrip (s : String) : String :=
  ⟨((s.toList.dropWhile Char.isWhitespace).reverse.dropWhile Char.isWhitespace).reverse⟩

/-- Worker for Python `str.split()` (no argument): split on whitespace runs. -/
def splitWsAux : List Char → List Char → List (List Char)
  | [], [] => []
  | [], cur => [cur.reverse]
  | c :: rest, cur =>
    if c.isWhitespace then
      if cur.isEmpty then splitWsAux rest []
      else cur.reverse :: splitWsAux rest []
    else splitWsAux rest (c :: cur)

/-- Python `str.split()` with no argument: whitespace-delimited tokens,
no empty tokens. -/
def pySplit (s : String) : List String := (splitWsAux s.toList []).map String.mk

/-- Python `line.startswith("#")`. -/
def startsWithHash (s : String) : Bool :=
  match s.toList with
  | '#' :: _ => true
  | _ => false

/-! ## Errors

One constructor per distinct `raise` site / Python runtime error reachable
in `poker_utility.py`; each carries exactly the data interpolated into the
Python error message (note which ones carry a line number and which not).
-/

inductive PErr where
  /-- `ValueError(f"Bad card token '{tok}'")` from `parse_card` (no line number). -/
  | badCardToken : String → PErr
  /-- `ValueError(f"Unsupported table size {n}; expected 2..9.")` from
  `_active_positions` (no line number). -/
  | unsupportedTableSize : Int → PErr
  /-- `ValueError(f"[line {ln}] unknown seat '{token}'")` from `_seat`. -/
  | unknownSeat : Nat → String → PErr
  /-- `ValueError(f"[line {ln}] seat '{token}' ≥ players ({n})")` from `_seat`. -/
  | seatNotAtTable : Nat → String → Int → PErr
  /-- `ValueError(f"[line {ln}] HAND needs 2 cards")` from `load_script`. -/
  | handNeedsTwoCards : Nat → PErr
  /-- `ValueError(f"[line {ln}] unknown verb '{verb}'")` from `load_script`. -/
  | unknownVerb : Nat → String → PErr
  /-- `ValueError` raised by Python's `float(tok)` (no line number). -/
  | couldNotConvertToFloat : String → PErr
  /-- Python `IndexError` from subscripting `parts` past its length. -/
  | indexOutOfRange : PErr
deriving DecidableEq, Repr

deriving instance DecidableEq for Except

/-! ## Card model (`SUITS`, `RANKS`, `CARD_RE`, `Card`, `parse_card`) -/

/-- `SUITS = "cdhs"`. -/
def SUITS : String := "cdhs"

/-- `RANKS = "23456789TJQKA"`. -/
def RANKS : String := "23456789TJQKA"

/-- Does `c` match the regex class `[2-9TJQKA]` under `re.I`? -/
def isRankChar (c : Char) : Bool := RANKS.toList.contains c.toUpper

/-- Does `c` match the regex class `[CDHS]` under `re.I`? -/
def isSuitChar (c : Char) : Bool := "CDHS".toList.contains c.toUpper

/-- The dataclass `Card` (rank stored uppercase, suit stored lowercase). -/
structure Card where
  rank : String
  suit : String
deriving DecidableEq, Repr

/-- `parse_card`: full-match of `CARD_RE = ((?:10|[2-9TJQKA]))([CDHS])` with
`re.I`, then canonicalize via `group(1).upper()` / `group(2).lower()`.
A full match is either `10` + suit (three chars) or rank char + suit. -/
def parse_card (tok : String) : Except PErr Card :=
  match tok.toList with
  | [c1, c2] =>
    if isRankChar c1 && isSuitChar c2 then .ok ⟨c1.toUpper.toString, c2.toLower.toString⟩
    else .error (.badCardToken tok)
  | [c1, c2, c3] =>
    if c1 = '1' ∧ c2 = '0' ∧ isSuitChar c3 then .ok ⟨"10", c3.toLower.toString⟩
    else .error (.badCardToken tok)
  | _ => .error (.badCardToken tok)

/-! ## Seating (`_FULL_ORDER`, `_TRIM_ORDER`, `_SEAT_NORMALIZE`,
`_active_positions`, `_normalize_seat_token`, `_seat`) -/

/-- Canonical 9-max order. -/
def _FULL_ORDER : List String :=
  ["UTG", "UTG+1", "UTG+2", "LJ", "HJ", "CO", "BTN", "SB", "BB"]

/-- Seat removal priority as table size shrinks. -/
def _TRIM_ORDER : List String :=
  ["UTG+2", "UTG+1", "UTG", "LJ", "HJ", "CO", "BTN"]

/-- Alias table `_SEAT_NORMALIZE`. -/
def _SEAT_NORMALIZE : List (String × String) :=
  [("UTG1", "UTG+1"), ("UTG2", "UTG+2"),
   ("BUTTON", "BTN"), ("DEALER", "BTN"), ("D", "BTN")]

/-- The `for pos in _TRIM_ORDER` loop of `_active_positions`:
stop once `to_remove ≤ 0`, else remove the first occurrence of `pos`. -/
def trimLoop : List String → Int → List String → List String
  | active, _, [] => active
  | active, toRemove, pos :: rest =>
    if toRemove ≤ 0 then active
    else if active.contains pos then trimLoop (active.erase pos) (toRemove - 1) rest
    else trimLoop active toRemove rest

/-- `_active_positions(n)`: guard `2 <= n <= 9`, then trim
`len(_FULL_ORDER) - n` seats following `_TRIM_ORDER`. -/
def _active_positions (n : Int) : Except PErr (List String) :=
  if 2 ≤ n ∧ n ≤ 9 then
    .ok (trimLoop _FULL_ORDER ((_FULL_ORDER.length : Int) - n) _TRIM_ORDER)
  else .error (.unsupportedTableSize n)

/-- `_normalize_seat_token`: uppercase then alias lookup. -/
def _normalize_seat_token (token : String) : String :=
  let t := pyUpper token
  match _SEAT_NORMALIZE.lookup t with
  | some v => v
  | none => t

/-- `_seat(token, n, ln)`: normalize, heads-up BTN→SB remap, then resolve
against the active order. -/
def _seat (token : String) (n : Int) (ln : Nat) : Except PErr Nat :=
  let t0 := _normalize_seat_token token
  let t := if n = 2 ∧ (t0 = "BTN" ∨ t0 = "BUTTON" ∨ t0 = "DEALER" ∨ t0 = "D")
    then "SB" else t0
  match _active_positions n with
  | .error e => .error e
  | .ok active =>
    if _FULL_ORDER.contains t = false then .error (.unknownSeat ln token)
    else if active.contains t = false then .error (.seatNotAtTable ln token n)
    else .ok (active.indexOf t)

/-- Public wrapper `active_positions`. -/
def active_positions (n : Int) : Except PErr (List String) := _active_positions n

/-- Public wrapper `seat_index` (uses `ln=0`). -/
def seat_index (token : String) (n : Int) : Except PErr Nat := _seat token n 0

/-! ## Python `float()` model

Amounts are modelled as exact rationals; `float("inf")`/`float("nan")`
keep their own markers.  The accepted grammar follows CPython:
`[sign] (digits [. digits?] | . digits) [(e|E) [sign] digits]` with
PEP 515 single underscores between digits, plus `inf`/`infinity`/`nan`
(case-insensitive).  Python's IEEE rounding is abstracted to exact values
(no claim depends on rounding). -/

inductive PyFloat where
  | finite : Rat → PyFloat
  | inf : PyFloat
  | ninf : PyFloat
  | nan : PyFloat
deriving DecidableEq, Repr

/-- Continue a digit group after at least one digit: further digits,
each optionally preceded by a single underscore.  Returns
(value so far, number of digits, unconsumed rest). -/
def digitsTail : List Char → Nat → Nat → Nat × Nat × List Char
  | '_' :: c :: rest, acc, k =>
    if c.isDigit then digitsTail rest (acc * 10 + (c.toNat - 48)) (k + 1)
    else (acc, k, '_' :: c :: rest)
  | c :: rest, acc, k =>
    if c.isDigit then digitsTail rest (acc * 10 + (c.toNat - 48)) (k + 1)
    else (acc, k, c :: rest)
  | [], acc, k => (acc, k, [])

/-- A digit group must start with a digit (no leading underscore). -/
def digitGroup : List Char → Option (Nat × Nat × List Char)
  | c :: rest => if c.isDigit then some (digitsTail rest (c.toNat - 48) 1) else none
  | [] => none

/-- Mantissa and exponent of a Python float literal (sign already removed). -/
def pyFloatBody (l : List Char) : Option Rat :=
  let mant : Option (Rat × List Char) :=
    match digitGroup l with
    | some (ip, _, r1) =>
      match r1 with
      | '.' :: r2 =>
        match digitGroup r2 with
        | some (fp, fk, r3) => some ((ip : Rat) + (fp : Rat) / (10 : Rat) ^ fk, r3)
        | none => some ((ip : Rat), r2)
      | _ => some ((ip : Rat), r1)
    | none =>
      match l with
      | '.' :: r2 =>
        match digitGroup r2 with
        | some (fp, fk, r3) => some ((fp : Rat) / (10 : Rat) ^ fk, r3)
        | none => none
      | _ => none
  match mant with
  | none => none
  | some (v, rest) =>
    match rest with
    | [] => some v
    | e :: r4 =>
      if e = 'e' ∨ e = 'E' then
        let se : Bool × List Char :=
          match r4 with
          | '+' :: r => (false, r)
          | '-' :: r => (true, r)
          | _ => (false, r4)
        match digitGroup se.2 with
        | some (ev, _, []) =>
          some (if se.1 then v / (10 : Rat) ^ ev else v * (10 : Rat) ^ ev)
        | _ => none
      else none

/-- Python `float(s)`: strip whitespace, optional sign, then either an
infinity/NaN word or a decimal literal. -/
def pyFloat (s : String) : Option PyFloat :=
  let l := (pyStrip s).toList
  let sl : Bool × List Char :=
    match l with
    | '+' :: r => (false, r)
    | '-' :: r => (true, r)
    | _ => (false, l)
  let up := sl.2.map Char.toUpper
  if up = ['I', 'N', 'F'] ∨ up = ['I', 'N', 'F', 'I', 'N', 'I', 'T', 'Y'] then
    some (if sl.1 then .ninf else .inf)
  else if up = ['N', 'A', 'N'] then some .nan
  else
    match pyFloatBody sl.2 with
    | some v => some (.finite (if sl.1 then -v else v))
    | none => none

/-! ## Actions and the parsed hand -/

/-- `_VALID_ACTIONS` (a Python set; membership is all that is used). -/
def _VALID_ACTIONS : List String := ["raise", "call", "bet", "check", "fold"]

/-- The dataclass `Action`. -/
structure Action where
  seat : Option Nat
  verb : String
  amount : Option PyFloat
  raw : String
  cards : Option (List Card) := none
deriving DecidableEq, Repr

/-- The dataclass `ParsedHand`; each hole-card row `[Card|None, Card|None]`
is modelled as a pair. -/
structure ParsedHand where
  hole_cards : List (Option Card × Option Card)
  actions : List Action
deriving DecidableEq, Repr

/-! ## The script loader `load_script` -/

/-- Parser state while streaming lines: the hole-card matrix and the
actions accumulated so far. -/
abbrev PState := List (Option Card × Option Card) × List Action

/-- Handling of one retained (non-blank, non-comment) line of the script,
dispatching on `parts = line.upper().split()`; `line` is the stripped
original line stored into `Action.raw`. -/
def processParts (parts : List String) (n : Int) (ln : Nat) (line : String)
    (st : PState) : Except PErr PState :=
  match parts with
  | [] => .error .indexOutOfRange
  | p0 :: rest =>
    if p0 = "HAND" then
      match rest with
      | [seatTok, c1Tok, c2Tok] =>
        match _seat seatTok n ln with
        | .error e => .error e
        | .ok idx =>
          match parse_card c1Tok with
          | .error e => .error e
          | .ok c1 =>
            match parse_card c2Tok with
            | .error e => .error e
            | .ok c2 => .ok (st.1.set idx (some c1, some c2), st.2)
      | _ => .error (.handNeedsTwoCards ln)
    else if p0 = "FLOP" then
      match (rest.take 3).mapM parse_card with
      | .error e => .error e
      | .ok cs => .ok (st.1, st.2 ++ [⟨none, "flop", none, line, some cs⟩])
    else if p0 = "TURN" then
      match rest with
      | [] => .error .indexOutOfRange
      | t :: _ =>
        match parse_card t with
        | .error e => .error e
        | .ok c => .ok (st.1, st.2 ++ [⟨none, "turn", none, line, some [c]⟩])
    else if p0 = "RIVER" then
      match rest with
      | [] => .error .indexOutOfRange
      | t :: _ =>
        match parse_card t with
        | .error e => .error e
        | .ok c => .ok (st.1, st.2 ++ [⟨none, "river", none, line, some [c]⟩])
    else
      match _seat p0 n ln with
      | .error e => .error e
      | .ok idx =>
        match rest with
        | [] => .error .indexOutOfRange
        | p1 :: rest2 =>
          let verb := pyLower p1
          if _VALID_ACTIONS.contains verb = false then .error (.unknownVerb ln verb)
          else
            match rest2 with
            | [amtTok] =>
              match pyFloat amtTok with
              | none => .error (.couldNotConvertToFloat amtTok)
              | some a => .ok (st.1, st.2 ++ [⟨some idx, verb, some a, line, none⟩])
            | _ => .ok (st.1, st.2 ++ [⟨some idx, verb, none, line, none⟩])

/-- One iteration of the `for ln, raw in enumerate(f, 1)` loop:
strip, skip blanks and comments, else tokenize and dispatch. -/
def processLine (raw : String) (n : Int) (ln : Nat) (st : PState) :
    Except PErr PState :=
  let line := pyStrip raw
  if line = "" ∨ startsWithHash line then .ok st
  else processParts (pySplit (pyUpper line)) n ln line st

/-- Stream the lines in order with 1-based numbering, aborting on the
first error. -/
def runLines (n : Int) : List String → Nat → PState → Except PErr PState
  | [], _, st => .ok st
  | l :: rest, ln, st =>
    match processLine l n ln st with
    | .error e => .error e
    | .ok st2 => runLines n rest (ln + 1) st2

/-- Initial hole-card matrix: `[[None, None] for _ in range(num_players)]`. -/
def initHole (numPlayers : Int) : List (Option Card × Option Card) :=
  List.replicate numPlayers.toNat (none, none)

/-- `load_script(path, num_players)` with the file contents given as the
list of its lines. -/
def load_script (lines : List String) (numPlayers : Int) : Except PErr ParsedHand :=
  match runLines numPlayers lines 1 (initHole numPlayers, []) with
  | .error e => .error e
  | .ok st => .ok ⟨st.1, st.2⟩

/-! ## Derived definitions used in the statements -/

/-- The seat list described by the spec's words: remove the first `9 - n`
entries of the trim priority from the canonical 9-order. -/
def specTrimmed (n : Int) : List String :=
  (_TRIM_ORDER.take (9 - n).toNat).foldl (fun acc p => acc.erase p) _FULL_ORDER

/-- The name `_seat` actually looks up: alias normalization followed by
the heads-up BTN→SB remap (the two `let`s at the top of `_seat`). -/
def _resolved_token (tok : String) (n : Int) : String :=
  let t0 := _normalize_seat_token tok
  if n = 2 ∧ (t0 = "BTN" ∨ t0 = "BUTTON" ∨ t0 = "DEALER" ∨ t0 = "D")
    then "SB" else t0

/-- The card-token grammar in the spec's words (claim C8): a rank-token
(`10`, or one case-insensitive character from `23456789TJQKA`)
immediately followed by a suit-token (one case-insensitive character from
`cdhs`), with no separator. -/
def specCardToken (tok : String) : Prop :=
  ∃ r s, tok.toList = r ++ s ∧
    (r = ['1', '0'] ∨ ∃ a, r = [a] ∧ isRankChar a = true) ∧
    (∃ b, s = [b] ∧ isSuitChar b = true)

/-- The action shape claimed in C9 (statement-level predicate, phrased
from the claim): a street deal with no seat and no amount, or a player
move with an in-range seat and no cards. -/
def specActionShape (n : Int) (a : Action) : Prop :=
  (a.seat = none ∧ a.amount = none ∧
    (a.verb = "flop" ∨ a.verb = "turn" ∨ a.verb = "river") ∧ a.cards ≠ none) ∨
  (∃ i, a.seat = some i ∧ (i : Int) < n ∧ a.verb ∈ _VALID_ACTIONS ∧ a.cards = none)

/-! ## Claim C1: `active_positions` -/

/-- C1 (counterexample): at `n = 8` the active list drops `UTG+2` from the
middle, so it is NOT a contiguous suffix of the canonical 9-order, contrary
to the claim's suffix clause. -/
theorem C1_counterexample :
    _active_positions 8 = .ok ["UTG", "UTG+1", "LJ", "HJ", "CO", "BTN", "SB", "BB"] ∧
    ¬ List.IsSuffix ["UTG", "UTG+1", "LJ", "HJ", "CO", "BTN", "SB", "BB"] _FULL_ORDER :=
  ⟨by decide, by decide⟩

/-- C1 (amended): for every `n ∈ [2,9]`, `active_positions(n)` has length
`n`, equals the canonical 9-seat order with `9-n` seats removed according
to the fixed trim priority, is a (not necessarily contiguous) subsequence
of the canonical 9-order, and has `BB` at the last index `n-1`; it is a
contiguous suffix of the canonical 9-order exactly for
`n ∈ {2,3,4,5,6,9}`, not for `n ∈ {7,8}`. -/
theorem C1_theorem : ∀ n : Int, 2 ≤ n → n ≤ 9 →
    _active_positions n = .ok (specTrimmed n) ∧
    (specTrimmed n).length = n.toNat ∧
    (specTrimmed n).Sublist _FULL_ORDER ∧
    (specTrimmed n)[n.toNat - 1]? = some "BB" ∧
    (List.IsSuffix (specTrimmed n) _FULL_ORDER ↔
      n = 2 ∨ n = 3 ∨ n = 4 ∨ n = 5 ∨ n = 6 ∨ n = 9) := by
  intro n h1 h2
  interval_cases n <;> exact ⟨by decide, by decide, by decide, by decide, by decide⟩

/-! ## Claim C2: table-size validation timing -/

/-- C2 (counterexample): with `table_size = 10` and a script whose only
line is a flop deal, the parse SUCCEEDS and the line IS consumed, contrary
to the claim that every parse at an out-of-range table size fails with
`InvalidTableSize` before any line is consumed. -/
theorem C2_counterexample :
    load_script ["FLOP 2C 3D 4H"] 10 =
      .ok ⟨initHole 10,
        [⟨none, "flop", none, "FLOP 2C 3D 4H",
          some [⟨"2", "c"⟩, ⟨"3", "d"⟩, ⟨"4", "h"⟩]⟩]⟩ := by
  decide

/-- C2 (amended): the table size is validated only inside seat resolution:
for every `table_size` outside `[2,9]`, `_seat` always fails with
`InvalidTableSize` (so the first line that resolves a seat aborts the
parse), but lines that resolve no seat are consumed normally — e.g. at
`table_size = 10` a comment and a flop line are consumed and the failure
arises only at the player-move line that follows. -/
theorem C2_theorem :
    (∀ n : Int, ¬(2 ≤ n ∧ n ≤ 9) → ∀ tok ln, _seat tok n ln = .error (.unsupportedTableSize n)) ∧
    load_script ["# note", "FLOP 2C 3D 4H", "BTN FOLD"] 10 =
      .error (.unsupportedTableSize 10) := by
  constructor
  · intro n h tok ln
    unfold _seat _active_positions
    rw [if_neg h]
  · decide

/-- C2 witness: the general part of the amended statement instantiated at
`n = 10`, `tok = "BTN"`, `ln = 1`. -/
theorem C2_witness : _seat "BTN" 10 1 = .error (.unsupportedTableSize 10) :=
  C2_theorem.1 10 (by decide) "BTN" 1

/-! ## Claim C3: street-deal lines -/

/-- Traversing a token list with `parse_card` succeeds exactly when every
token parses. -/
theorem mapM_parse_card_isOk (l : List String) :
    (l.mapM parse_card).isOk = l.all fun t => (parse_card t).isOk := by
  induction l with
  | nil => rfl
  | cons t rest ih =>
    rw [List.mapM_cons, List.all_cons, ← ih]
    cases h : parse_card t with
    | error e => simp [Except.isOk, Except.toBool, Bind.bind, Except.bind, h]
    | ok c =>
      cases h2 : rest.mapM parse_card with
      | error e =>
        simp [Except.isOk, Except.toBool, Bind.bind, Except.bind, h, h2]
      | ok cs =>
        simp [Except.isOk, Except.toBool, Bind.bind, Except.bind, h, h2, Pure.pure, Except.pure]

/-- C3 (counterexample): the line `FLOP 2C 3D` has only 2 card tokens, yet
the parse SUCCEEDS, emitting a two-card flop deal — contrary to the claim
that it must fail with `MalformedStreet`. -/
theorem C3_counterexample :
    load_script ["FLOP 2C 3D"] 9 =
      .ok ⟨initHole 9,
        [⟨none, "flop", none, "FLOP 2C 3D", some [⟨"2", "c"⟩, ⟨"3", "d"⟩]⟩]⟩ := by
  decide

/-- C3 (amended): a `FLOP` line parses whatever card tokens sit in the
first three slots after the keyword — fewer than 3 are accepted and extras
are silently ignored — succeeding iff each of those tokens is a valid card
(failing with `InvalidCardToken` otherwise, never `MalformedStreet`);
a `TURN`/`RIVER` line parses exactly the token at index 1: if it is absent
the parse fails with an index-out-of-range error (not `MalformedStreet`),
and any extra tokens are silently ignored. -/
theorem C3_theorem :
    (∀ rest n ln raw st,
      (processParts ("FLOP" :: rest) n ln raw st).isOk =
        (rest.take 3).all fun t => (parse_card t).isOk) ∧
    (∀ rest n ln raw st cs, (rest.take 3).mapM parse_card = .ok cs →
      processParts ("FLOP" :: rest) n ln raw st =
        .ok (st.1, st.2 ++ [⟨none, "flop", none, raw, some cs⟩])) ∧
    (∀ n ln raw st,
      processParts ["TURN"] n ln raw st = .error .indexOutOfRange ∧
      processParts ["RIVER"] n ln raw st = .error .indexOutOfRange) ∧
    (∀ t rest2 n ln raw st c, parse_card t = .ok c →
      processParts ("TURN" :: t :: rest2) n ln raw st =
        .ok (st.1, st.2 ++ [⟨none, "turn", none, raw, some [c]⟩]) ∧
      processParts ("RIVER" :: t :: rest2) n ln raw st =
        .ok (st.1, st.2 ++ [⟨none, "river", none, raw, some [c]⟩])) ∧
    load_script ["FLOP 2C 3D 4H 5S", "TURN 6C 6D"] 5 =
      .ok ⟨initHole 5,
        [⟨none, "flop", none, "FLOP 2C 3D 4H 5S",
          some [⟨"2", "c"⟩, ⟨"3", "d"⟩, ⟨"4", "h"⟩]⟩,
         ⟨none, "turn", none, "TURN 6C 6D", some [⟨"6", "c"⟩]⟩]⟩ := by
  refine ⟨?_, ?_, ?_, ?_, by decide⟩
  · intro rest n ln raw st
    rw [← mapM_parse_card_isOk]
    have e : processParts ("FLOP" :: rest) n ln raw st =
        match (rest.take 3).mapM parse_card with
        | .error e => .error e
        | .ok cs => .ok (st.1, st.2 ++ [⟨none, "flop", none, raw, some cs⟩]) := rfl
    rw [e]
    cases h : (rest.take 3).mapM parse_card <;> simp [Except.isOk, Except.toBool]
  · intro rest n ln raw st cs h
    have e : processParts ("FLOP" :: rest) n ln raw st =
        match (rest.take 3).mapM parse_card with
        | .error e => .error e
        | .ok cs => .ok (st.1, st.2 ++ [⟨none, "flop", none, raw, some cs⟩]) := rfl
    rw [e, h]
  · intro n ln raw st
    exact ⟨rfl, rfl⟩
  · intro t rest2 n ln raw st c h
    constructor
    · have e : processParts ("TURN" :: t :: rest2) n ln raw st =
          match parse_card t with
          | .error e => .error e
          | .ok c => .ok (st.1, st.2 ++ [⟨none, "turn", none, raw, some [c]⟩]) := rfl
      rw [e, h]
    · have e : processParts ("RIVER" :: t :: rest2) n ln raw st =
          match parse_card t with
          | .error e => .error e
          | .ok c => .ok (st.1, st.2 ++ [⟨none, "river", none, raw, some [c]⟩]) := rfl
      rw [e, h]

/-- C3 witness: the `FLOP` clause of the amended statement instantiated at
a concrete two-token flop line. -/
theorem C3_witness :
    processParts ["FLOP", "7H", "10C"] 2 4 "FLOP 7h 10c" (initHole 2, []) =
      .ok (initHole 2,
        [⟨none, "flop", none, "FLOP 7h 10c", some [⟨"7", "h"⟩, ⟨"10", "c"⟩]⟩]) := by
  have h := C3_theorem.2.1 ["7H", "10C"] 2 4 "FLOP 7h 10c" (initHole 2, [])
    [⟨"7", "h"⟩, ⟨"10", "c"⟩] (by decide)
  exact h.trans (by decide)

/-! ## Claims C4 and C5: the player-move branch -/

/-- Characterization of `processParts` on a line whose first token is none
of the four keywords: the player-move branch (seat first, then verb, then
the amount only when the line has exactly three tokens). -/
theorem processParts_move (p0 : String) (rest : List String) (n : Int) (ln : Nat)
    (raw : String) (st : PState)
    (h1 : p0 ≠ "HAND") (h2 : p0 ≠ "FLOP") (h3 : p0 ≠ "TURN") (h4 : p0 ≠ "RIVER") :
    processParts (p0 :: rest) n ln raw st =
      match _seat p0 n ln with
      | .error e => .error e
      | .ok idx =>
        match rest with
        | [] => .error .indexOutOfRange
        | p1 :: rest2 =>
          if _VALID_ACTIONS.contains (pyLower p1) = false then
            .error (.unknownVerb ln (pyLower p1))
          else
            match rest2 with
            | [amtTok] =>
              match pyFloat amtTok with
              | none => .error (.couldNotConvertToFloat amtTok)
              | some a => .ok (st.1, st.2 ++ [⟨some idx, pyLower p1, some a, raw, none⟩])
            | _ => .ok (st.1, st.2 ++ [⟨some idx, pyLower p1, none, raw, none⟩]) := by
  simp only [processParts]
  rw [if_neg h1, if_neg h2, if_neg h3, if_neg h4]

/-- C4 (counterexample): the line `SB check 5` parses successfully and its
`PlayerMove` CARRIES the amount `5` even though the verb is `check` —
contrary to the claim that an amount is present only for
`bet`/`raise`/`call` and that an amount token with `check` is not legal. -/
theorem C4_counterexample :
    load_script ["SB check 5"] 2 =
      .ok ⟨initHole 2,
        [⟨some 0, "check", some (.finite 5), "SB check 5", none⟩]⟩ := by
  decide

/-- C4 (amended): a `PlayerMove` carries an amount if and only if the
input line supplied a third token that parses as a Python float,
regardless of the verb (`check`/`fold` included); a two-token line yields
`amount = none` (never a default `0`), and in particular `BTN raise`
yields `PlayerMove(verb=raise, amount=absent)`. -/
theorem C4_theorem :
    (∀ p0 p1 n ln raw st idx,
      p0 ≠ "HAND" → p0 ≠ "FLOP" → p0 ≠ "TURN" → p0 ≠ "RIVER" →
      _seat p0 n ln = .ok idx → pyLower p1 ∈ _VALID_ACTIONS →
      processParts [p0, p1] n ln raw st =
        .ok (st.1, st.2 ++ [⟨some idx, pyLower p1, none, raw, none⟩])) ∧
    (∀ p0 p1 t n ln raw st idx a,
      p0 ≠ "HAND" → p0 ≠ "FLOP" → p0 ≠ "TURN" → p0 ≠ "RIVER" →
      _seat p0 n ln = .ok idx → pyLower p1 ∈ _VALID_ACTIONS →
      pyFloat t = some a →
      processParts [p0, p1, t] n ln raw st =
        .ok (st.1, st.2 ++ [⟨some idx, pyLower p1, some a, raw, none⟩])) ∧
    load_script ["BTN raise"] 6 =
      .ok ⟨initHole 6, [⟨some 3, "raise", none, "BTN raise", none⟩]⟩ := by
  refine ⟨?_, ?_, by decide⟩
  · intro p0 p1 n ln raw st idx h1 h2 h3 h4 hs hv
    rw [processParts_move p0 [p1] n ln raw st h1 h2 h3 h4, hs]
    simp [hv]
  · intro p0 p1 t n ln raw st idx a h1 h2 h3 h4 hs hv ha
    rw [processParts_move p0 [p1, t] n ln raw st h1 h2 h3 h4, hs]
    simp [hv, ha]

/-- C4 witness: the two-token clause of the amended statement
instantiated at `BTN RAISE` for a 6-max table. -/
theorem C4_witness :
    processParts ["BTN", "RAISE"] 6 1 "BTN raise" (initHole 6, []) =
      .ok (initHole 6, [⟨some 3, "raise", none, "BTN raise", none⟩]) := by
  have h := C4_theorem.1 "BTN" "RAISE" 6 1 "BTN raise" (initHole 6, []) 3
    (by decide) (by decide) (by decide) (by decide) (by decide) (by decide)
  exact h.trans (by decide)

/-- C5 (counterexample): the four-token line `BTN BET 3 5` parses
SUCCESSFULLY (the surplus tokens are ignored and the amount is dropped to
`none`), contrary to the claim that any token count other than 2 or 3 in
the player-move branch fails with `MalformedMove`. -/
theorem C5_counterexample :
    load_script ["BTN BET 3 5"] 6 =
      .ok ⟨initHole 6, [⟨some 3, "bet", none, "BTN BET 3 5", none⟩]⟩ := by
  decide

/-- C5 (amended): in the player-move branch the seat is resolved first;
then a verb whose lowercasing is not in `{raise,call,bet,check,fold}`
fails with `UnknownVerb`; a line with exactly three tokens whose third
does not parse as a Python float fails with `InvalidAmount`
(the float conversion error); a one-token line fails with an
index-out-of-range error rather than `MalformedMove`; and a line with
four or more tokens is ACCEPTED, with the amount silently dropped to
`none`. -/
theorem C5_theorem :
    (∀ p0 p1 rest2 n ln raw st idx,
      p0 ≠ "HAND" → p0 ≠ "FLOP" → p0 ≠ "TURN" → p0 ≠ "RIVER" →
      _seat p0 n ln = .ok idx → pyLower p1 ∉ _VALID_ACTIONS →
      processParts (p0 :: p1 :: rest2) n ln raw st =
        .error (.unknownVerb ln (pyLower p1))) ∧
    (∀ p0 p1 t n ln raw st idx,
      p0 ≠ "HAND" → p0 ≠ "FLOP" → p0 ≠ "TURN" → p0 ≠ "RIVER" →
      _seat p0 n ln = .ok idx → pyLower p1 ∈ _VALID_ACTIONS →
      pyFloat t = none →
      processParts [p0, p1, t] n ln raw st =
        .error (.couldNotConvertToFloat t)) ∧
    (∀ p0 n ln raw st idx,
      p0 ≠ "HAND" → p0 ≠ "FLOP" → p0 ≠ "TURN" → p0 ≠ "RIVER" →
      _seat p0 n ln = .ok idx →
      processParts [p0] n ln raw st = .error .indexOutOfRange) ∧
    (∀ p0 p1 t1 t2 rest n ln raw st idx,
      p0 ≠ "HAND" → p0 ≠ "FLOP" → p0 ≠ "TURN" → p0 ≠ "RIVER" →
      _seat p0 n ln = .ok idx → pyLower p1 ∈ _VALID_ACTIONS →
      processParts (p0 :: p1 :: t1 :: t2 :: rest) n ln raw st =
        .ok (st.1, st.2 ++ [⟨some idx, pyLower p1, none, raw, none⟩])) := by
  refine ⟨?_, ?_, ?_, ?_⟩
  · intro p0 p1 rest2 n ln raw st idx h1 h2 h3 h4 hs hv
    rw [processParts_move p0 (p1 :: rest2) n ln raw st h1 h2 h3 h4, hs]
    simp [hv]
  · intro p0 p1 t n ln raw st idx h1 h2 h3 h4 hs hv ha
    rw [processParts_move p0 [p1, t] n ln raw st h1 h2 h3 h4, hs]
    simp [hv, ha]
  · intro p0 n ln raw st idx h1 h2 h3 h4 hs
    rw [processParts_move p0 [] n ln raw st h1 h2 h3 h4, hs]
  · intro p0 p1 t1 t2 rest n ln raw st idx h1 h2 h3 h4 hs hv
    rw [processParts_move p0 (p1 :: t1 :: t2 :: rest) n ln raw st h1 h2 h3 h4, hs]
    simp [hv]

/-- C5 witness: the unknown-verb clause of the amended statement
instantiated at the line `BTN JAM`. -/
theorem C5_witness :
    processParts ["BTN", "JAM"] 6 2 "BTN jam" (initHole 6, []) =
      .error (.unknownVerb 2 "jam") := by
  have h := C5_theorem.1 "BTN" "JAM" [] 6 2 "BTN jam" (initHole 6, []) 3
    (by decide) (by decide) (by decide) (by decide) (by decide) (by decide)
  exact h.trans (by decide)

/-! ## Claim C6: error annotation -/

/-- The only error `_active_positions` can raise is the table-size error. -/
theorem _active_positions_error {n : Int} {e : PErr}
    (h : _active_positions n = .error e) : e = .unsupportedTableSize n := by
  unfold _active_positions at h
  split at h
  · exact absurd h (by simp)
  · injection h with h2
    exact h2.symm

/-- C6 (counterexample): a bad card token inside a `HAND` line aborts the
parse with `InvalidCardToken`, and the error value is IDENTICAL whether
the offending line is line 1 or line 2 of the input — so it is annotated
with neither the 1-based line number nor the raw text of the offending
line, contrary to the claim that every parse error carries both. -/
theorem C6_counterexample :
    load_script ["HAND SB ZZ 2C"] 3 = .error (.badCardToken "ZZ") ∧
    load_script ["# first line", "HAND SB ZZ 2C"] 3 = .error (.badCardToken "ZZ") :=
  ⟨by decide, by decide⟩

/-- Every error `_seat` can raise: the table-size error (no line number),
or `UnknownSeat` / `SeatNotAtTable` carrying the given line number and the
original seat token. -/
theorem _seat_error_payload : ∀ tok n ln e, _seat tok n ln = .error e →
    e = .unsupportedTableSize n ∨ e = .unknownSeat ln tok ∨
    e = .seatNotAtTable ln tok n := by
  intro tok n ln e h
  unfold _seat at h
  dsimp only at h
  cases ha : _active_positions n with
  | error e2 =>
    rw [ha] at h
    dsimp only at h
    injection h with h2
    subst h2
    exact Or.inl (_active_positions_error ha)
  | ok active =>
    rw [ha] at h
    dsimp only at h
    split at h <;>
      (split at h
       · injection h with h2
         exact Or.inr (Or.inl h2.symm)
       · split at h
         · injection h with h2
           exact Or.inr (Or.inr h2.symm)
         · exact absurd h (by simp))

/-! ## Claim C7: heads-up remap and the two seat errors -/

/-- `_seat` restated through `_resolved_token` (pure unfolding). -/
theorem _seat_eq (tok : String) (n : Int) (ln : Nat) : _seat tok n ln =
    match _active_positions n with
    | .error e => .error e
    | .ok active =>
      if _FULL_ORDER.contains (_resolved_token tok n) = false then
        .error (.unknownSeat ln tok)
      else if active.contains (_resolved_token tok n) = false then
        .error (.seatNotAtTable ln tok n)
      else .ok (active.indexOf (_resolved_token tok n)) := rfl

/-- C7: at table size 2 every token normalizing to BTN (so `BTN` itself
and the aliases `BUTTON`, `DEALER`, `D`, in any letter case) resolves
exactly as `SB` does; `resolve("BTN",2) = resolve("SB",2) = 0`; a token
whose resolved name is canonical but trimmed from the table fails with
`SeatNotAtTable`, while a token whose resolved name is not canonical at
all fails with `UnknownSeat` — e.g. `UTG+2` vs `XX` at a 6-max table. -/
theorem C7_theorem :
    (∀ tok ln, _normalize_seat_token tok = "BTN" →
      _seat tok 2 ln = _seat "SB" 2 ln) ∧
    (∀ tok n ln active, _active_positions n = .ok active →
      _resolved_token tok n ∉ _FULL_ORDER →
      _seat tok n ln = .error (.unknownSeat ln tok)) ∧
    (∀ tok n ln active, _active_positions n = .ok active →
      _resolved_token tok n ∈ _FULL_ORDER →
      _resolved_token tok n ∉ active →
      _seat tok n ln = .error (.seatNotAtTable ln tok n)) ∧
    (seat_index "BTN" 2 = .ok 0 ∧ seat_index "SB" 2 = .ok 0 ∧
     seat_index "BUTTON" 2 = .ok 0 ∧ seat_index "DEALER" 2 = .ok 0 ∧
     seat_index "D" 2 = .ok 0 ∧ seat_index "btn" 2 = .ok 0) ∧
    seat_index "UTG+2" 6 = .error (.seatNotAtTable 0 "UTG+2" 6) ∧
    seat_index "XX" 6 = .error (.unknownSeat 0 "XX") := by
  refine ⟨?_, ?_, ?_, by decide, by decide, by decide⟩
  · intro tok ln h
    rw [_seat_eq, _seat_eq]
    have h1 : _resolved_token tok 2 = "SB" := by
      unfold _resolved_token
      rw [h]
      simp
    have h2 : _resolved_token "SB" 2 = "SB" := by decide
    have ha : _active_positions 2 = .ok ["SB", "BB"] := by decide
    rw [h1, h2, ha]
    simp [show "SB" ∈ _FULL_ORDER from by decide]
  · intro tok n ln active ha hm
    rw [_seat_eq, ha]
    simp [hm]
  · intro tok n ln active ha hm1 hm2
    rw [_seat_eq, ha]
    simp [hm1, hm2]

/-- C7 witness: the heads-up clause instantiated at the alias `Dealer`
(which normalizes to `BTN`), line 7. -/
theorem C7_witness : _seat "Dealer" 2 7 = _seat "SB" 2 7 :=
  C7_theorem.1 "Dealer" 7 (by decide)

/-! ## Claim C10: repeated `HAND` lines overwrite -/

/-- C10: a well-formed `HAND` line always succeeds regardless of the
current hole-card contents and replaces BOTH slots of the resolved seat's
row (via `List.set`); rows of every other seat are untouched by that
write; and concretely, two `HAND` lines resolving to the same seat parse
successfully with the later line's cards retained. -/
theorem C10_theorem :
    (∀ seatTok c1Tok c2Tok n ln raw hole acts idx c1 c2,
      _seat seatTok n ln = .ok idx →
      parse_card c1Tok = .ok c1 → parse_card c2Tok = .ok c2 →
      processParts ["HAND", seatTok, c1Tok, c2Tok] n ln raw (hole, acts) =
        .ok (hole.set idx (some c1, some c2), acts)) ∧
    (∀ (hole : List (Option Card × Option Card)) idx v j, j ≠ idx →
      (hole.set idx v)[j]? = hole[j]?) ∧
    load_script ["HAND SB 2C 3C", "HAND SB AH KH"] 2 =
      .ok ⟨[(some ⟨"A", "h"⟩, some ⟨"K", "h"⟩), (none, none)], []⟩ := by
  refine ⟨?_, ?_, by decide⟩
  · intro seatTok c1Tok c2Tok n ln raw hole acts idx c1 c2 hs h1 h2
    have e : processParts ["HAND", seatTok, c1Tok, c2Tok] n ln raw (hole, acts) =
        match _seat seatTok n ln with
        | .error e => .error e
        | .ok idx =>
          match parse_card c1Tok with
          | .error e => .error e
          | .ok c1 =>
            match parse_card c2Tok with
            | .error e => .error e
            | .ok c2 => .ok (hole.set idx (some c1, some c2), acts) := rfl
    rw [e, hs, h1, h2]
  · intro hole idx v j hj
    exact List.getElem?_set_ne (fun hh => hj hh.symm)

/-- C10 witness: the overwrite clause instantiated at the second `HAND SB`
line of the concrete script, starting from a state where seat 0 already
holds cards. -/
theorem C10_witness :
    processParts ["HAND", "SB", "AH", "KH"] 2 2 "HAND SB AH KH"
      ([(some ⟨"2", "c"⟩, some ⟨"3", "c"⟩), (none, none)], []) =
      .ok ([(some ⟨"2", "c"⟩, some ⟨"3", "c"⟩), (none, none)].set 0
        (some ⟨"A", "h"⟩, some ⟨"K", "h"⟩), []) :=
  C10_theorem.1 "SB" "AH" "KH" 2 2 "HAND SB AH KH"
    [(some ⟨"2", "c"⟩, some ⟨"3", "c"⟩), (none, none)] [] 0
    ⟨"A", "h"⟩ ⟨"K", "h"⟩ (by decide) (by decide) (by decide)

/-! ## Claim C9: action shapes -/

/-- On success `_active_positions` returns a list of length `n`, and the
size guard passed. -/
theorem _active_positions_ok {n : Int} {active : List String}
    (h : _active_positions n = .ok active) :
    (active.length : Int) = n ∧ 2 ≤ n ∧ n ≤ 9 := by
  unfold _active_positions at h
  split at h
  case isTrue hc =>
    injection h with h2
    subst h2
    refine ⟨?_, hc.1, hc.2⟩
    obtain ⟨hl, hr⟩ := hc
    interval_cases n <;> decide
  case isFalse => exact absurd h (by simp)

/-- A successfully resolved seat index is below the table size. -/
theorem _seat_ok_bound {tok : String} {n : Int} {ln : Nat} {i : Nat}
    (h : _seat tok n ln = .ok i) : (i : Int) < n := by
  rw [_seat_eq] at h
  cases ha : _active_positions n with
  | error e => rw [ha] at h; exact absurd h (by simp)
  | ok active =>
    rw [ha] at h
    dsimp only at h
    split at h
    · exact absurd h (by simp)
    · split at h
      · exact absurd h (by simp)
      · rename_i h2
        injection h with h3
        subst h3
        have hc : active.contains (_resolved_token tok n) = true := by
          revert h2
          cases active.contains (_resolved_token tok n) <;> simp
        have hmem : _resolved_token tok n ∈ active := by simpa using hc
        have hlt := List.indexOf_lt_length.mpr hmem
        have hlen := (_active_positions_ok ha).1
        omega

/-- Every action appended by one line dispatch is well-shaped. -/
theorem processParts_shape {parts : List String} {n : Int} {ln : Nat} {line : String}
    {st st2 : PState} (h : processParts parts n ln line st = .ok st2) :
    ∀ a ∈ st2.2, a ∈ st.2 ∨ specActionShape n a := by
  cases parts with
  | nil => exact absurd h (by simp [processParts])
  | cons p0 rest =>
    unfold processParts at h
    dsimp only at h
    by_cases h0 : p0 = "HAND"
    · rw [if_pos h0] at h
      split at h
      · split at h
        · exact absurd h (by simp)
        · split at h
          · exact absurd h (by simp)
          · split at h
            · exact absurd h (by simp)
            · injection h with h3
              subst h3
              intro a ha2
              exact Or.inl ha2
      · exact absurd h (by simp)
    · rw [if_neg h0] at h
      by_cases hF : p0 = "FLOP"
      · rw [if_pos hF] at h
        split at h
        · exact absurd h (by simp)
        · injection h with h3
          subst h3
          intro a ha2
          rcases List.mem_append.mp ha2 with hmem | hmem
          · exact Or.inl hmem
          · right
            rw [List.mem_singleton.mp hmem]
            exact Or.inl ⟨rfl, rfl, Or.inl rfl, by simp⟩
      · rw [if_neg hF] at h
        by_cases hT : p0 = "TURN"
        · rw [if_pos hT] at h
          split at h
          · exact absurd h (by simp)
          · split at h
            · exact absurd h (by simp)
            · injection h with h3
              subst h3
              intro a ha2
              rcases List.mem_append.mp ha2 with hmem | hmem
              · exact Or.inl hmem
              · right
                rw [List.mem_singleton.mp hmem]
                exact Or.inl ⟨rfl, rfl, Or.inr (Or.inl rfl), by simp⟩
        · rw [if_neg hT] at h
          by_cases hR : p0 = "RIVER"
          · rw [if_pos hR] at h
            split at h
            · exact absurd h (by simp)
            · split at h
              · exact absurd h (by simp)
              · injection h with h3
                subst h3
                intro a ha2
                rcases List.mem_append.mp ha2 with hmem | hmem
                · exact Or.inl hmem
                · right
                  rw [List.mem_singleton.mp hmem]
                  exact Or.inl ⟨rfl, rfl, Or.inr (Or.inr rfl), by simp⟩
          · rw [if_neg hR] at h
            split at h
            · exact absurd h (by simp)
            · rename_i idx hseat
              split at h
              · exact absurd h (by simp)
              · rename_i p1 rest2
                split at h
                · exact absurd h (by simp)
                · rename_i hverb
                  have hvm : pyLower p1 ∈ _VALID_ACTIONS := by
                    have hcv : _VALID_ACTIONS.contains (pyLower p1) = true := by
                      revert hverb
                      cases _VALID_ACTIONS.contains (pyLower p1) <;> simp
                    simpa using hcv
                  split at h
                  · split at h
                    · exact absurd h (by simp)
                    · injection h with h3
                      subst h3
                      intro a ha2
                      rcases List.mem_append.mp ha2 with hmem | hmem
                      · exact Or.inl hmem
                      · right
                        rw [List.mem_singleton.mp hmem]
                        exact Or.inr ⟨idx, rfl, _seat_ok_bound hseat, hvm, rfl⟩
                  · injection h with h3
                    subst h3
                    intro a ha2
                    rcases List.mem_append.mp ha2 with hmem | hmem
                    · exact Or.inl hmem
                    · right
                      rw [List.mem_singleton.mp hmem]
                      exact Or.inr ⟨idx, rfl, _seat_ok_bound hseat, hvm, rfl⟩

/-- Lifting of the shape invariant through one streamed line. -/
theorem processLine_shape {raw : String} {n : Int} {ln : Nat} {st st2 : PState}
    (h : processLine raw n ln st = .ok st2) :
    ∀ a ∈ st2.2, a ∈ st.2 ∨ specActionShape n a := by
  unfold processLine at h
  dsimp only at h
  split at h
  · injection h with h3
    subst h3
    intro a ha2
    exact Or.inl ha2
  · exact processParts_shape h

/-- Lifting of the shape invariant through the whole line stream. -/
theorem runLines_shape {n : Int} : ∀ (lines : List String) (ln : Nat) (st st2 : PState),
    runLines n lines ln st = .ok st2 →
    (∀ a ∈ st.2, specActionShape n a) → ∀ a ∈ st2.2, specActionShape n a := by
  intro lines
  induction lines with
  | nil =>
    intro ln st st2 h hinv
    unfold runLines at h
    injection h with h3
    subst h3
    exact hinv
  | cons l rest ih =>
    intro ln st st2 h hinv
    unfold runLines at h
    cases hp : processLine l n ln st with
    | error e => rw [hp] at h; exact absurd h (by simp)
    | ok stm =>
      rw [hp] at h
      dsimp only at h
      refine ih (ln + 1) stm st2 h ?_
      intro a ha2
      rcases processLine_shape hp a ha2 with hold | hnew
      · exact hinv a hold
      · exact hnew

/-- C9: in every successfully parsed hand, each action is either a street
deal (`seat = none`, `amount = none`, verb among flop/turn/river, with a
cards list) or a player move (a seat index in `[0, table_size)`, a verb
in the valid set, and `cards = none`) — never a mixture. -/
theorem C9_theorem : ∀ lines n ph, load_script lines n = .ok ph →
    ∀ a ∈ ph.actions, specActionShape n a := by
  intro lines n ph h a ha
  unfold load_script at h
  cases hr : runLines n lines 1 (initHole n, []) with
  | error e => rw [hr] at h; exact absurd h (by simp)
  | ok st =>
    rw [hr] at h
    dsimp only at h
    injection h with h3
    subst h3
    exact runLines_shape lines 1 _ st hr (by intro a2 ha2; exact absurd ha2 (by simp)) a ha

/-- C9 witness: the invariant instantiated at the single action parsed
from `LJ bet 2` at a 6-max table. -/
theorem C9_witness : specActionShape 6 ⟨some 0, "bet", some (.finite 2), "LJ bet 2", none⟩ :=
  C9_theorem ["LJ bet 2"] 6 ⟨initHole 6, [⟨some 0, "bet", some (.finite 2), "LJ bet 2", none⟩]⟩
    (by decide) ⟨some 0, "bet", some (.finite 2), "LJ bet 2", none⟩ (by decide)

/-! ## Claim C8: `parse_card`

The ASCII-only `Char.toUpper`/`Char.toLower` model Python's case folding
on the ASCII tokens of this grammar; the lemmas below unfold their
arithmetic definitions once. -/

/-- `Char.ofNat` round-trips on scalar values below the surrogate range. -/
theorem toNat_ofNat_valid {m : Nat} (h : m < 55296) : (Char.ofNat m).toNat = m := by
  rw [Char.ofNat, dif_pos (Or.inl h)]
  rfl

theorem char_eq_of_toNat {c : Char} {k : Nat} (h : c.toNat = k) : c = Char.ofNat k := by
  rw [← h, Char.ofNat_toNat]

/-- What `Char.toUpper c = u` says about `c`. -/
theorem toUpper_eq_char {c u : Char} (h : c.toUpper = u) :
    c = u ∨ (97 ≤ c.toNat ∧ c.toNat ≤ 122 ∧ c.toNat = u.toNat + 32) := by
  unfold Char.toUpper at h
  dsimp only at h
  split at h
  case isTrue hc =>
    right
    have hv : (Char.ofNat (c.toNat - 32)).toNat = c.toNat - 32 :=
      toNat_ofNat_valid (by omega)
    rw [h] at hv
    exact ⟨hc.1, hc.2, by omega⟩
  case isFalse => exact Or.inl h

/-- A character with a given uppercasing is that character or its
lowercase counterpart. -/
theorem toUpper_cases {c u : Char} (h : c.toUpper = u) :
    c = u ∨ c = Char.ofNat (u.toNat + 32) := by
  rcases toUpper_eq_char h with h1 | ⟨_, _, h3⟩
  · exact Or.inl h1
  · exact Or.inr (char_eq_of_toNat h3)

/-- Digits are fixed points of uppercasing. -/
theorem upper_eq_one {c : Char} (h : c.toUpper = '1') : c = '1' := by
  rcases toUpper_eq_char h with h1 | ⟨h2, _, h3⟩
  · exact h1
  · simp at h3
    omega

theorem upper_eq_zero {c : Char} (h : c.toUpper = '0') : c = '0' := by
  rcases toUpper_eq_char h with h1 | ⟨h2, _, h3⟩
  · exact h1
  · simp at h3
    omega

/-- Suit characters with equal uppercasings have equal lowercasings. -/
theorem suit_toLower_eq {b1 b2 : Char} (h : b1.toUpper = b2.toUpper)
    (hs : isSuitChar b1 = true) : b1.toLower = b2.toLower := by
  have hm : b1.toUpper = 'C' ∨ b1.toUpper = 'D' ∨ b1.toUpper = 'H' ∨ b1.toUpper = 'S' := by
    simpa [isSuitChar] using hs
  rcases hm with hu | hu | hu | hu <;>
    (rcases toUpper_cases hu with rfl | rfl <;>
      (rcases toUpper_cases (h ▸ hu) with rfl | rfl <;> decide))

/-- A suit character lowercases into `cdhs`. -/
theorem suit_toLower_mem {b : Char} (hs : isSuitChar b = true) :
    b.toLower ∈ SUITS.toList := by
  have hm : b.toUpper = 'C' ∨ b.toUpper = 'D' ∨ b.toUpper = 'H' ∨ b.toUpper = 'S' := by
    simpa [isSuitChar] using hs
  rcases hm with hu | hu | hu | hu <;>
    (rcases toUpper_cases hu with rfl | rfl <;> decide)

/-- Case-insensitively equivalent tokens parse to the same optional card. -/
theorem parse_card_ci : ∀ t1 t2 : String,
    t1.toList.map Char.toUpper = t2.toList.map Char.toUpper →
    (parse_card t1).toOption = (parse_card t2).toOption := by
  intro t1 t2 h
  unfold parse_card
  rcases ht1 : t1.toList with _ | ⟨a1, _ | ⟨b1, _ | ⟨c1, _ | ⟨d1, r1⟩⟩⟩⟩ <;>
    rcases ht2 : t2.toList with _ | ⟨a2, _ | ⟨b2, _ | ⟨c2, _ | ⟨d2, r2⟩⟩⟩⟩ <;>
      rw [ht1, ht2] at h <;> simp at h <;> try rfl
  case cons.cons.nil.cons.cons.nil =>
    obtain ⟨ha, hb⟩ := h
    have hr : isRankChar a1 = isRankChar a2 := by unfold isRankChar; rw [ha]
    have hsu : isSuitChar b1 = isSuitChar b2 := by unfold isSuitChar; rw [hb]
    dsimp only
    by_cases hc : (isRankChar a2 && isSuitChar b2) = true
    · rw [if_pos (by rw [hr, hsu]; exact hc), if_pos hc]
      have hsb : isSuitChar b1 = true := by
        rw [hsu]
        exact (Bool.and_eq_true _ _ |>.mp hc).2
      rw [ha, suit_toLower_eq hb hsb]
    · rw [if_neg (by rw [hr, hsu]; exact hc), if_neg hc]
      rfl
  case cons.cons.cons.nil.cons.cons.cons.nil =>
    obtain ⟨ha, hb, hcc⟩ := h
    have h1iff : a1 = '1' ↔ a2 = '1' := by
      constructor
      · rintro rfl
        exact upper_eq_one (by rw [← ha]; decide)
      · rintro rfl
        exact upper_eq_one (by rw [ha]; decide)
    have h0iff : b1 = '0' ↔ b2 = '0' := by
      constructor
      · rintro rfl
        exact upper_eq_zero (by rw [← hb]; decide)
      · rintro rfl
        exact upper_eq_zero (by rw [hb]; decide)
    have hsuit : isSuitChar c1 = isSuitChar c2 := by unfold isSuitChar; rw [hcc]
    dsimp only
    by_cases hcond : a1 = '1' ∧ b1 = '0' ∧ isSuitChar c1 = true
    · have hcond2 : a2 = '1' ∧ b2 = '0' ∧ isSuitChar c2 = true :=
        ⟨h1iff.mp hcond.1, h0iff.mp hcond.2.1, hsuit ▸ hcond.2.2⟩
      rw [if_pos hcond, if_pos hcond2]
      rw [suit_toLower_eq hcc hcond.2.2]
    · have hcond2 : ¬(a2 = '1' ∧ b2 = '0' ∧ isSuitChar c2 = true) := by
        intro hx
        exact hcond ⟨h1iff.mpr hx.1, h0iff.mpr hx.2.1, hsuit ▸ hx.2.2⟩
      rw [if_neg hcond, if_neg hcond2]
      rfl

/-- `parse_card` succeeds exactly on the spec's card-token grammar. -/
theorem parse_card_iff_spec : ∀ tok : String,
    (parse_card tok).isOk = true ↔ specCardToken tok := by
  intro tok
  unfold parse_card specCardToken
  rcases ht : tok.toList with _ | ⟨a, _ | ⟨b, _ | ⟨c, _ | ⟨d, r⟩⟩⟩⟩
  · constructor
    · intro hx
      exact absurd hx (by simp [Except.isOk, Except.toBool])
    · rintro ⟨r, s, hsplit, hr2, ⟨b2, rfl, _⟩⟩
      rcases hr2 with rfl | ⟨a2, rfl, _⟩ <;> simp at hsplit
  · constructor
    · intro hx
      exact absurd hx (by simp [Except.isOk, Except.toBool])
    · rintro ⟨r, s, hsplit, hr2, ⟨b2, rfl, _⟩⟩
      rcases hr2 with rfl | ⟨a2, rfl, _⟩ <;> simp at hsplit
  · constructor
    · intro hx
      dsimp only at hx
      by_cases hc : (isRankChar a && isSuitChar b) = true
      · obtain ⟨hra, hsb⟩ := Bool.and_eq_true _ _ |>.mp hc
        exact ⟨[a], [b], rfl, Or.inr ⟨a, rfl, hra⟩, ⟨b, rfl, hsb⟩⟩
      · rw [if_neg hc] at hx
        exact absurd hx (by simp [Except.isOk, Except.toBool])
    · rintro ⟨r, s, hsplit, hr2, ⟨b2, rfl, hsb⟩⟩
      rcases hr2 with rfl | ⟨a2, rfl, hra⟩
      · simp at hsplit
      · simp at hsplit
        obtain ⟨rfl, rfl⟩ := hsplit
        dsimp only
        rw [if_pos (by rw [hra, hsb]; rfl)]
        rfl
  · constructor
    · intro hx
      dsimp only at hx
      by_cases hc : a = '1' ∧ b = '0' ∧ isSuitChar c = true
      · obtain ⟨rfl, rfl, hsc⟩ := hc
        exact ⟨['1', '0'], [c], rfl, Or.inl rfl, ⟨c, rfl, hsc⟩⟩
      · rw [if_neg hc] at hx
        exact absurd hx (by simp [Except.isOk, Except.toBool])
    · rintro ⟨r, s, hsplit, hr2, ⟨b2, rfl, hsb⟩⟩
      rcases hr2 with rfl | ⟨a2, rfl, hra⟩
      · simp at hsplit
        obtain ⟨rfl, rfl, rfl⟩ := hsplit
        dsimp only
        rw [if_pos ⟨rfl, rfl, hsb⟩]
        rfl
      · simp at hsplit
  · constructor
    · intro hx
      exact absurd hx (by simp [Except.isOk, Except.toBool])
    · rintro ⟨r, s, hsplit, hr2, ⟨b2, rfl, _⟩⟩
      rcases hr2 with rfl | ⟨a2, rfl, _⟩ <;> simp at hsplit

/-- A successfully parsed card is canonical: the rank is `10` or one of
the uppercase rank letters, the suit one of the lowercase suit letters. -/
theorem parse_card_canonical : ∀ tok c, parse_card tok = .ok c →
    (c.rank = "10" ∨ c.rank ∈ RANKS.toList.map Char.toString) ∧
    c.suit ∈ SUITS.toList.map Char.toString := by
  intro tok c h
  unfold parse_card at h
  rcases ht : tok.toList with _ | ⟨a, _ | ⟨b, _ | ⟨c3, _ | ⟨d, r⟩⟩⟩⟩ <;> rw [ht] at h
  · exact absurd h (by simp)
  · exact absurd h (by simp)
  · dsimp only at h
    by_cases hc : (isRankChar a && isSuitChar b) = true
    · rw [if_pos hc] at h
      injection h with h2
      subst h2
      obtain ⟨hra, hsb⟩ := Bool.and_eq_true _ _ |>.mp hc
      constructor
      · right
        exact List.mem_map_of_mem Char.toString (by simpa [isRankChar] using hra)
      · exact List.mem_map_of_mem Char.toString (suit_toLower_mem hsb)
    · rw [if_neg hc] at h
      exact absurd h (by simp)
  · dsimp only at h
    by_cases hc : a = '1' ∧ b = '0' ∧ isSuitChar c3 = true
    · rw [if_pos hc] at h
      injection h with h2
      subst h2
      exact ⟨Or.inl rfl, List.mem_map_of_mem Char.toString (suit_toLower_mem hc.2.2)⟩
    · rw [if_neg hc] at h
      exact absurd h (by simp)
  · exact absurd h (by simp)

/-- Every failure of `parse_card` is the card-token error on that token. -/
theorem parse_card_isOk_or_error : ∀ tok,
    (parse_card tok).isOk = true ∨ parse_card tok = .error (.badCardToken tok) := by
  intro tok
  unfold parse_card
  rcases ht : tok.toList with _ | ⟨a, _ | ⟨b, _ | ⟨c, _ | ⟨d, r⟩⟩⟩⟩
  · exact Or.inr rfl
  · exact Or.inr rfl
  · dsimp only
    by_cases hc : (isRankChar a && isSuitChar b) = true
    · rw [if_pos hc]
      exact Or.inl rfl
    · rw [if_neg hc]
      exact Or.inr rfl
  · dsimp only
    by_cases hc : a = '1' ∧ b = '0' ∧ isSuitChar c = true
    · rw [if_pos hc]
      exact Or.inl rfl
    · rw [if_neg hc]
      exact Or.inr rfl
  · exact Or.inr rfl

/-- C8: `parse_card` succeeds exactly on a rank-token immediately
followed by a suit-token (no separator), failing with `InvalidCardToken`
on every other token; the result is canonicalized (rank uppercase — or
the literal `10` — and suit lowercase); case-insensitively equivalent
tokens parse to equal cards (`parse_card "ah" = parse_card "AH"`); and
each of the 52 canonical rank/suit combinations parses successfully. -/
theorem C8_theorem :
    (∀ tok, (parse_card tok).isOk = true ↔ specCardToken tok) ∧
    (∀ tok, (parse_card tok).isOk = true ∨
      parse_card tok = .error (.badCardToken tok)) ∧
    (∀ tok c, parse_card tok = .ok c →
      (c.rank = "10" ∨ c.rank ∈ RANKS.toList.map Char.toString) ∧
      c.suit ∈ SUITS.toList.map Char.toString) ∧
    (∀ t1 t2 : String, t1.toList.map Char.toUpper = t2.toList.map Char.toUpper →
      (parse_card t1).toOption = (parse_card t2).toOption) ∧
    parse_card "ah" = parse_card "AH" ∧
    (∀ r ∈ RANKS.toList, ∀ s ∈ SUITS.toList,
      parse_card (String.mk [r, s]) = .ok ⟨r.toString, s.toString⟩) :=
  ⟨parse_card_iff_spec, parse_card_isOk_or_error, parse_card_canonical,
   parse_card_ci, by decide, by decide⟩

/-- C8 witness: the case-insensitivity clause instantiated at
`kd` / `KD`. -/
theorem C8_witness : (parse_card "kd").toOption = (parse_card "KD").toOption :=
  C8_theorem.2.2.2.1 "kd" "KD" (by decide)

/-! ## Claim C6 (continued): full error-payload characterization -/

/-- The only error `parse_card` can raise is the card-token error on its
own token (so it carries no line number). -/
theorem parse_card_error {t : String} {e : PErr} (h : parse_card t = .error e) :
    e = .badCardToken t := by
  rcases parse_card_isOk_or_error t with h2 | h2
  · rw [h] at h2
    exact absurd h2 (by simp [Except.isOk, Except.toBool])
  · exact (Except.error.inj (h2.symm.trans h)).symm

/-- Traversal failures are card-token errors on one of the tokens. -/
theorem mapM_parse_card_error : ∀ (l : List String) (e : PErr),
    l.mapM parse_card = .error e → ∃ t, t ∈ l ∧ e = .badCardToken t := by
  intro l
  induction l with
  | nil =>
    intro e h
    rw [List.mapM_nil] at h
    exact absurd h (by simp [Pure.pure, Except.pure])
  | cons t rest ih =>
    intro e h
    rw [List.mapM_cons] at h
    cases hc : parse_card t with
    | error e2 =>
      rw [hc] at h
      simp only [Bind.bind, Except.bind] at h
      injection h with h3
      subst h3
      exact ⟨t, List.mem_cons_self t rest, parse_card_error hc⟩
    | ok c =>
      rw [hc] at h
      simp only [Bind.bind, Except.bind] at h
      cases h2 : rest.mapM parse_card with
      | error e3 =>
        rw [h2] at h
        simp only [Bind.bind, Except.bind] at h
        injection h with h3
        subst h3
        obtain ⟨t2, hm, he⟩ := ih _ h2
        exact ⟨t2, List.mem_cons_of_mem t hm, he⟩
      | ok cs =>
        rw [h2] at h
        simp [Bind.bind, Except.bind, Pure.pure, Except.pure] at h

/-- Every error one line dispatch can raise, with its exact payload:
seat errors carry the line number and the seat token; the `HAND`-arity
error carries the line number only; the unknown-verb error carries the
line number and the lowercased verb; card-token and float-conversion
errors carry only the offending token; the table-size error carries only
the size; the index error carries nothing. -/
theorem processParts_error {parts : List String} {n : Int} {ln : Nat} {line : String}
    {st : PState} {e : PErr} (h : processParts parts n ln line st = .error e) :
    (∃ tok, e = .unknownSeat ln tok ∨ e = .seatNotAtTable ln tok n) ∨
    e = .handNeedsTwoCards ln ∨
    (∃ v, e = .unknownVerb ln v) ∨
    (∃ t, e = .badCardToken t) ∨
    (∃ t, e = .couldNotConvertToFloat t) ∨
    e = .unsupportedTableSize n ∨
    e = .indexOutOfRange := by
  have seatCase : ∀ tok e2, _seat tok n ln = .error e2 → e2 = e →
      (∃ tok2, e = .unknownSeat ln tok2 ∨ e = .seatNotAtTable ln tok2 n) ∨
      e = .handNeedsTwoCards ln ∨
      (∃ v, e = .unknownVerb ln v) ∨
      (∃ t, e = .badCardToken t) ∨
      (∃ t, e = .couldNotConvertToFloat t) ∨
      e = .unsupportedTableSize n ∨
      e = .indexOutOfRange := by
    intro tok e2 hseat he
    subst he
    rcases _seat_error_payload _ _ _ _ hseat with h4 | h4 | h4
    · exact Or.inr (Or.inr (Or.inr (Or.inr (Or.inr (Or.inl h4)))))
    · exact Or.inl ⟨tok, Or.inl h4⟩
    · exact Or.inl ⟨tok, Or.inr h4⟩
  cases parts with
  | nil =>
    unfold processParts at h
    dsimp only at h
    injection h with h2
    exact Or.inr (Or.inr (Or.inr (Or.inr (Or.inr (Or.inr h2.symm)))))
  | cons p0 rest =>
    unfold processParts at h
    dsimp only at h
    by_cases h0 : p0 = "HAND"
    · rw [if_pos h0] at h
      split at h
      · split at h
        · rename_i e2 hseat
          injection h with h2
          exact seatCase _ _ hseat h2
        · split at h
          · rename_i e2 hcard
            injection h with h2
            subst h2
            exact Or.inr (Or.inr (Or.inr (Or.inl ⟨_, parse_card_error hcard⟩)))
          · split at h
            · rename_i e2 hcard
              injection h with h2
              subst h2
              exact Or.inr (Or.inr (Or.inr (Or.inl ⟨_, parse_card_error hcard⟩)))
            · exact absurd h (by simp)
      · injection h with h2
        exact Or.inr (Or.inl h2.symm)
    · rw [if_neg h0] at h
      by_cases hF : p0 = "FLOP"
      · rw [if_pos hF] at h
        split at h
        · rename_i e2 hmap
          injection h with h2
          subst h2
          obtain ⟨t, _, he⟩ := mapM_parse_card_error _ _ hmap
          exact Or.inr (Or.inr (Or.inr (Or.inl ⟨t, he⟩)))
        · exact absurd h (by simp)
      · rw [if_neg hF] at h
        by_cases hT : p0 = "TURN"
        · rw [if_pos hT] at h
          split at h
          · injection h with h2
            exact Or.inr (Or.inr (Or.inr (Or.inr (Or.inr (Or.inr h2.symm)))))
          · split at h
            · rename_i e2 hcard
              injection h with h2
              subst h2
              exact Or.inr (Or.inr (Or.inr (Or.inl ⟨_, parse_card_error hcard⟩)))
            · exact absurd h (by simp)
        · rw [if_neg hT] at h
          by_cases hR : p0 = "RIVER"
          · rw [if_pos hR] at h
            split at h
            · injection h with h2
              exact Or.inr (Or.inr (Or.inr (Or.inr (Or.inr (Or.inr h2.symm)))))
            · split at h
              · rename_i e2 hcard
                injection h with h2
                subst h2
                exact Or.inr (Or.inr (Or.inr (Or.inl ⟨_, parse_card_error hcard⟩)))
              · exact absurd h (by simp)
          · rw [if_neg hR] at h
            split at h
            · rename_i e2 hseat
              injection h with h2
              exact seatCase _ _ hseat h2
            · split at h
              · injection h with h2
                exact Or.inr (Or.inr (Or.inr (Or.inr (Or.inr (Or.inr h2.symm)))))
              · split at h
                · injection h with h2
                  exact Or.inr (Or.inr (Or.inl ⟨_, h2.symm⟩))
                · split at h
                  · split at h
                    · injection h with h2
                      exact Or.inr (Or.inr (Or.inr (Or.inr (Or.inl ⟨_, h2.symm⟩))))
                    · exact absurd h (by simp)
                  · exact absurd h (by simp)

/-- C6 (amended): every parse error carries at most a line number and a
fragment of the offending line, never the raw text of the whole line.
Precisely: seat-resolution errors are annotated with the 1-based line
number and the offending seat token; the `HAND`-arity error with the line
number only; the unknown-verb error with the line number and the
lowercased verb token; card-token and float-conversion errors carry only
the offending token with NO line annotation; the table-size error carries
only the size.  In particular `XX fold` on line 3 fails with
`UnknownSeat` citing line 3, `HAND SB` fails with the arity error citing
its own 1-based line number (and nothing else), and a bad amount token
yields the identical un-annotated error from any line position.  No
partial `ParsedHand` is ever returned: a parse yields either exactly one
error or a complete hand. -/
theorem C6_theorem :
    (∀ tok n ln e, _seat tok n ln = .error e →
      e = .unsupportedTableSize n ∨ e = .unknownSeat ln tok ∨
      e = .seatNotAtTable ln tok n) ∧
    (∀ (parts : List String) (n : Int) (ln : Nat) (line : String) (st : PState) e,
      processParts parts n ln line st = .error e →
      (∃ tok, e = .unknownSeat ln tok ∨ e = .seatNotAtTable ln tok n) ∨
      e = .handNeedsTwoCards ln ∨
      (∃ v, e = .unknownVerb ln v) ∨
      (∃ t, e = .badCardToken t) ∨
      (∃ t, e = .couldNotConvertToFloat t) ∨
      e = .unsupportedTableSize n ∨
      e = .indexOutOfRange) ∧
    load_script ["# setup", "", "XX fold"] 6 = .error (.unknownSeat 3 "XX") ∧
    (load_script ["HAND SB"] 2 = .error (.handNeedsTwoCards 1) ∧
     load_script ["# note", "", "HAND SB"] 2 = .error (.handNeedsTwoCards 3)) ∧
    (load_script ["SB bet 3x"] 2 = .error (.couldNotConvertToFloat "3X") ∧
     load_script ["# note", "SB bet 3x"] 2 = .error (.couldNotConvertToFloat "3X")) ∧
    (∀ lines n, (∃ e, load_script lines n = .error e) ∨
      ∃ h, load_script lines n = .ok h) := by
  refine ⟨_seat_error_payload, ?_, by decide, ⟨by decide, by decide⟩,
    ⟨by decide, by decide⟩, ?_⟩
  · intro parts n ln line st e h
    exact processParts_error h
  · intro lines n
    cases h : load_script lines n with
    | error e => exact Or.inl ⟨e, rfl⟩
    | ok ph => exact Or.inr ⟨ph, rfl⟩

/-- C6 witness: the seat-error clause of the amended statement
instantiated at token `XX`, table size 6, line 3. -/
theorem C6_witness :
    PErr.unknownSeat 3 "XX" = .unsupportedTableSize 6 ∨
    PErr.unknownSeat 3 "XX" = .unknownSeat 3 "XX" ∨
    PErr.unknownSeat 3 "XX" = .seatNotAtTable 3 "XX" 6 :=
  C6_theorem.1 "XX" 6 3 (.unknownSeat 3 "XX") (by decide)

/-- C1 witness: the amended statement instantiated at `n = 7`. -/
theorem C1_witness :
    _active_positions 7 = .ok (specTrimmed 7) ∧
    (specTrimmed 7).length = (7 : Int).toNat ∧
    (specTrimmed 7).Sublist _FULL_ORDER ∧
    (specTrimmed 7)[(7 : Int).toNat - 1]? = some "BB" ∧
    (List.IsSuffix (specTrimmed 7) _FULL_ORDER ↔
      (7 : Int) = 2 ∨ (7 : Int) = 3 ∨ (7 : Int) = 4 ∨ (7 : Int) = 5 ∨
        (7 : Int) = 6 ∨ (7 : Int) = 9) :=
  C1_theorem 7 (by decide) (by decide)

end PokerUtility
